import Mathlib

/-!
Shallow embedding of the `ziv` terminal text editor (src/buffer.rs,
src/editor.rs, src/main.rs) and verification of the frozen claims about
its specification.

Rust `String` values are modelled as `List Char` (the sources only ever
index lines with byte offsets that coincide with char offsets on the
ASCII data the claims exercise); `usize`/`u16` values are modelled as
`Nat` (every subtraction in the sources is either guarded or a
`saturating_sub`, which coincides with `Nat` subtraction).  File-system
writes are modelled as producing the written contents string, and reads
as receiving an optional contents string; the `std::time::Instant`
timestamp attached to status messages is dropped (real time is not
modelled).
-/

deriving instance DecidableEq for Except

namespace Ziv

/-- A Rust string, modelled as its list of characters. -/
abbrev Str := List Char

/-- Conversion from a Lean string literal to the `Str` model. -/
def toStr (s : String) : Str := s.data

/-- Helper for the line splitters: prepend a character to the first
segment of a split result (a fresh singleton segment if there is none). -/
def consHead (c : Char) : List Str → List Str
  | [] => [[c]]
  | h :: t => (c :: h) :: t

/-- Model of Rust `str::lines` (used by `Buffer::new` and
`Buffer::from_file`): split at `"\n"` or `"\r\n"` terminators, the final
terminator being optional; a terminator is not part of any line, and a
`'\r'` not immediately followed by `'\n'` is an ordinary character
(including in an unterminated final line). -/
def rustLines : Str → List Str
  | [] => []
  | ['\r'] => [['\r']]
  | '\r' :: '\n' :: cs => [] :: rustLines cs
  | c :: cs =>
    if c = '\n' then [] :: rustLines cs
    else consHead c (rustLines cs)

/-- Model of `Vec<String>::join("\n")` (used by `Buffer::save` and
`Buffer::save_as`). -/
def joinNl : List Str → Str
  | [] => []
  | [l] => l
  | l :: ls => l ++ '\n' :: joinNl ls

/-- Accumulator-passing worker for `splitWs`. -/
def splitWsAux : Str → Str → List Str
  | word, [] => if word = [] then [] else [word.reverse]
  | word, c :: cs =>
    if c.isWhitespace then
      if word = [] then splitWsAux [] cs else word.reverse :: splitWsAux [] cs
    else splitWsAux (c :: word) cs

/-- Model of Rust `str::split_whitespace` (used by
`Editor::handle_command`): split on runs of whitespace, yielding no
empty tokens.  (Rust uses the Unicode white-space property; the model
uses `Char.isWhitespace`, which agrees on the ASCII command strings the
editor handles.) -/
def splitWs (s : Str) : List Str := splitWsAux [] s

/-- Error values produced by the fallible `Buffer` operations
(`anyhow::Error` carries a message; the model keeps the offending index
instead of the formatted text). -/
inductive Err where
  | invalidLineIndex (idx : Nat)
  | invalidColumnIndex (idx : Nat)
  | noFileAssociated
deriving DecidableEq, Repr

/-- The `Buffer` struct of src/buffer.rs: an optional backing path, the
lines, and the modified flag. -/
structure Buffer where
  file : Option Str
  lines : List Str
  is_modified : Bool
deriving DecidableEq, Repr

namespace Buffer

/-- `Buffer::new`: empty contents yield one empty line, otherwise the
contents are split with `str::lines`. -/
def new (file : Option Str) (contents : Str) : Buffer :=
  { file := file
    lines := if contents = [] then [[]] else rustLines contents
    is_modified := false }

/-- `Buffer::insert_new_line`: insert an empty line before index `cy`
(`Vec::insert`; the Rust code panics for `cy > len`, a case no caller
reaches because the cursor row is clamped below the line count). -/
def insert_new_line (b : Buffer) (cy : Nat) (_cx : Nat) : Buffer :=
  { b with lines := b.lines.insertIdx cy [], is_modified := true }

/-- `Buffer::from_file`: the file system is modelled by an optional
contents string — `none` means the path does not exist (yielding one
empty line), `some contents` means reading succeeds with `contents`
(the I/O-failure branch of the Rust code is not modelled). -/
def from_file (path : Str) (fsContents : Option Str) : Buffer :=
  match fsContents with
  | none => { file := some path, lines := [[]], is_modified := false }
  | some contents =>
    { file := some path
      lines := if contents = [] then [[]] else rustLines contents
      is_modified := false }

/-- The contents string `Buffer::save`/`save_as` write to disk:
`self.lines.join("\n")`. -/
def saveContents (b : Buffer) : Str := joinNl b.lines

/-- `Buffer::save`: fails when no path is bound; otherwise writes
`saveContents` (the write itself is modelled as succeeding) and clears
the modified flag. -/
def save (b : Buffer) : Except Err Buffer :=
  match b.file with
  | some _ => .ok { b with is_modified := false }
  | none => .error .noFileAssociated

/-- `Buffer::save_as`: writes `saveContents` to `path` (modelled as
succeeding), rebinds the path and clears the modified flag. -/
def save_as (b : Buffer) (path : Str) : Buffer :=
  { b with file := some path, is_modified := false }

/-- `Buffer::len`. -/
def len (b : Buffer) : Nat := b.lines.length

/-- `Buffer::get_line` (`&self.lines[idx]`; the Rust code panics for an
out-of-range index, which the model totalises with an empty default —
every caller guards the index via the cursor clamp). -/
def get_line (b : Buffer) (idx : Nat) : Str := b.lines.getD idx []

/-- `Buffer::insert_char`: row out of range or column beyond the line
length is an error; otherwise the character is inserted at offset `cx`
of line `cy`.  (Note: the Rust code does not touch `is_modified` here.) -/
def insert_char (b : Buffer) (cx cy : Nat) (c : Char) : Except Err Buffer :=
  if cy ≥ b.lines.length then .error (.invalidLineIndex cy)
  else
    let line := b.lines.getD cy []
    if cx > line.length then .error (.invalidColumnIndex cx)
    else .ok { b with lines := b.lines.set cy (line.insertIdx cx c) }

/-- `Buffer::remove_char`: row out of range or column at/after the line
length is an error; otherwise the character at offset `cx` of line `cy`
is removed and the modified flag set. -/
def remove_char (b : Buffer) (cx cy : Nat) : Except Err Buffer :=
  if cy ≥ b.lines.length then .error (.invalidLineIndex cy)
  else
    let line := b.lines.getD cy []
    if cx ≥ line.length then .error (.invalidColumnIndex cx)
    else .ok { b with lines := b.lines.set cy (line.eraseIdx cx), is_modified := true }

/-- `Buffer::remove_line`: row out of range is an error; on a single-line
buffer the line is taken out and replaced by an empty line
(`std::mem::take`); otherwise the line is removed from the vector.  The
removed text is returned alongside the new buffer. -/
def remove_line (b : Buffer) (cy : Nat) : Except Err (Str × Buffer) :=
  if cy ≥ b.lines.length then .error (.invalidLineIndex cy)
  else if b.lines.length = 1 then
    .ok (b.lines.getD 0 [], { b with lines := b.lines.set 0 [], is_modified := true })
  else
    .ok (b.lines.getD cy [], { b with lines := b.lines.eraseIdx cy, is_modified := true })

end Buffer

/-- The editing modes of src/editor.rs. -/
inductive Mode where
  | Normal
  | Insert
  | Command
deriving DecidableEq, Repr

/-- The `Action` enum of src/editor.rs. -/
inductive Action where
  | Quit
  | Save
  | SaveAs (path : Str)
  | MoveUp
  | MoveDown
  | MoveLeft
  | MoveRight
  | MoveStartOfLine
  | MoveEndOfLine
  | PageUp
  | PageDown
  | AddChar (c : Char)
  | NewLine
  | DeleteChar
  | DeleteLine
  | EnterMode (m : Mode)
  | NextBuffer
  | PreviousBuffer
  | ExecuteCommand (command : Str)
deriving DecidableEq, Repr

/-- Crossterm key codes, restricted to those the editor matches on. -/
inductive KeyCode where
  | Esc
  | Enter
  | Backspace
  | Up
  | Down
  | Left
  | Right
  | Char (c : Char)
  | Other
deriving DecidableEq, Repr

/-- A crossterm key event: code plus whether exactly the CONTROL
modifier is held (the only modifier the editor tests for). -/
structure KeyEvent where
  code : KeyCode
  ctrl : Bool
deriving DecidableEq, Repr

/-- The `Editor` struct of src/editor.rs, minus its pure-rendering and
I/O-handle fields (`stdout`, `syntax_set`, `theme`), which no claim and
no state transition reads.  `size` is `(columns, rows)`; the `Instant`
in `status_message` is dropped. -/
structure Editor where
  buffers : List Buffer
  active_buffer : Nat
  size : Nat × Nat
  cx : Nat
  cy : Nat
  mode : Mode
  exit : Bool
  scroll_offset : Nat
  command_line : Str
  status_message : Option Str
deriving DecidableEq, Repr

namespace Editor

/-- `Editor::current_buffer` (`&self.buffers[self.active_buffer]`; Rust
panics when the index is out of range, which the model totalises — the
session keeps `active_buffer < buffers.len()`). -/
def current_buffer (e : Editor) : Buffer :=
  e.buffers.getD e.active_buffer ⟨none, [], false⟩

/-- Write back a mutation of the active buffer
(`Editor::current_buffer_mut`). -/
def setActive (e : Editor) (b : Buffer) : Editor :=
  { e with buffers := e.buffers.set e.active_buffer b }

/-- `Editor::set_status_message` (the `Instant::now()` timestamp is
dropped). -/
def set_status_message (e : Editor) (msg : Str) : Editor :=
  { e with status_message := some msg }

/-- `Editor::visible_lines`: `self.size.1.saturating_sub(2)`. -/
def visible_lines (e : Editor) : Nat := e.size.2 - 2

/-- `Editor::adjust_scroll`: pull the window up to the cursor row, or
push it down so the row is the last visible line. -/
def adjust_scroll (e : Editor) : Editor :=
  let vis := e.visible_lines
  let e := if e.cy < e.scroll_offset then { e with scroll_offset := e.cy } else e
  if e.cy ≥ e.scroll_offset + vis then { e with scroll_offset := e.cy - vis + 1 } else e

/-- `Editor::adjust_cursor_position`: clamp the row below the line
count, clamp the column below the line length when not in Insert mode,
then adjust the scroll window. -/
def adjust_cursor_position (e : Editor) : Editor :=
  let max_cy := e.current_buffer.len - 1
  let e := { e with cy := min e.cy max_cy }
  let e :=
    if e.mode ≠ Mode.Insert then
      { e with cx := min e.cx ((e.current_buffer.get_line e.cy).length - 1) }
    else e
  e.adjust_scroll

/-- The non-`ExecuteCommand` cases of `Editor::handle_action`.  In the
Rust source `handle_action` and `handle_command` are mutually recursive
solely through the `ExecuteCommand` case (which no caller constructs);
the model stratifies them so that both stay computable:
`handle_action_basic` is `handle_action` restricted to the actions
`handle_command` itself dispatches (it never dispatches
`ExecuteCommand`), and `handle_action` below adds that last case.  A
`(State, Option Err)` return value models Rust's in-place mutation plus
`Result<()>`: the state carries whatever mutations happened before an
early `?` return. -/
def handle_action_basic (e : Editor) : Action → Editor × Option Err
  | .Quit => ({ e with exit := true }, none)
  | .Save =>
    match e.current_buffer.save with
    | .ok b => ((e.setActive b).set_status_message (toStr "File saved"), none)
    | .error err => (e, some err)
  | .SaveAs path =>
    ((e.setActive (e.current_buffer.save_as path)).set_status_message
      (toStr "File saved as"), none)
  | .MoveUp => (if e.cy > 0 then { e with cy := e.cy - 1 } else e, none)
  | .MoveDown =>
    (if e.cy < e.current_buffer.len - 1 then { e with cy := e.cy + 1 } else e, none)
  | .MoveLeft => (if e.cx > 0 then { e with cx := e.cx - 1 } else e, none)
  | .MoveRight =>
    let line_len := (e.current_buffer.get_line e.cy).length
    (if e.cx < line_len then { e with cx := e.cx + 1 } else e, none)
  | .MoveStartOfLine => ({ e with cx := 0 }, none)
  | .MoveEndOfLine =>
    ({ e with cx := (e.current_buffer.get_line e.cy).length }, none)
  | .PageUp => ({ e with cy := e.cy - e.visible_lines }, none)
  | .PageDown =>
    ({ e with cy := min (e.cy + e.visible_lines) (e.current_buffer.len - 1) }, none)
  | .AddChar c =>
    match e.current_buffer.insert_char e.cx e.cy c with
    | .ok b => ({ e.setActive b with cx := e.cx + 1 }, none)
    | .error err => (e, some err)
  | .NewLine =>
    let b := e.current_buffer.insert_new_line e.cy e.cx
    ({ e.setActive b with cx := 0, cy := e.cy + 1 }, none)
  | .DeleteChar =>
    match e.current_buffer.remove_char e.cx e.cy with
    | .ok b =>
      let e2 := e.setActive b
      (if e.cx > 0 then { e2 with cx := e2.cx - 1 } else e2, none)
    | .error err => (e, some err)
  | .DeleteLine =>
    match e.current_buffer.remove_line e.cy with
    | .ok (_, b) => (e.setActive b, none)
    | .error err => (e, some err)
  | .EnterMode m => ({ e with mode := m }, none)
  | .NextBuffer =>
    ({ e with active_buffer := (e.active_buffer + 1) % e.buffers.length }, none)
  | .PreviousBuffer =>
    (if e.active_buffer = 0 then { e with active_buffer := e.buffers.length - 1 }
     else { e with active_buffer := e.active_buffer - 1 }, none)
  | .ExecuteCommand _ => (e, none)

/-- `Editor::handle_command`: split the command on whitespace and match
the first token; `w`/`write` save (optionally to a given path),
`q`/`quit` quit only when the active buffer is unmodified, `q!`/`quit!`
always quit, `wq` saves then quits, anything else sets an
unknown-command status message.  The dispatched actions are all
non-`ExecuteCommand`, so `handle_action_basic` is used (see its
docstring). -/
def handle_command (e : Editor) (command : Str) : Editor × Option Err :=
  match splitWs command with
  | [] => (e, none)
  | p0 :: rest =>
    if p0 = toStr "w" ∨ p0 = toStr "write" then
      if rest.length ≥ 1 then e.handle_action_basic (.SaveAs (rest.getD 0 []))
      else e.handle_action_basic .Save
    else if p0 = toStr "q" ∨ p0 = toStr "quit" then
      if ¬ e.current_buffer.is_modified then e.handle_action_basic .Quit
      else
        (e.set_status_message (toStr "No write since last change (add ! to override)"),
         none)
    else if p0 = toStr "q!" ∨ p0 = toStr "quit!" then
      e.handle_action_basic .Quit
    else if p0 = toStr "wq" then
      match e.handle_action_basic .Save with
      | (e2, some err) => (e2, some err)
      | (e2, none) => e2.handle_action_basic .Quit
    else
      (e.set_status_message (toStr "Unknown command: " ++ command), none)

/-- `Editor::handle_action`, the full dispatcher: every case of
`handle_action_basic` plus `ExecuteCommand`, which runs
`handle_command`. -/
def handle_action (e : Editor) (a : Action) : Editor × Option Err :=
  match a with
  | .ExecuteCommand command => e.handle_command command
  | a => e.handle_action_basic a

/-- The `(key.code, key.modifiers)` match of `Editor::handle_normal_key`,
in source order. -/
def normalKeyAction (k : KeyEvent) : Option Action :=
  match k.code, k.ctrl with
  | .Char ':', _ => some (.EnterMode .Command)
  | .Char 'i', _ => some (.EnterMode .Insert)
  | .Up, _ => some .MoveUp
  | .Char 'k', _ => some .MoveUp
  | .Down, _ => some .MoveDown
  | .Char 'j', _ => some .MoveDown
  | .Left, _ => some .MoveLeft
  | .Char 'h', _ => some .MoveLeft
  | .Right, _ => some .MoveRight
  | .Char 'l', _ => some .MoveRight
  | .Char '0', _ => some .MoveStartOfLine
  | .Char '$', _ => some .MoveEndOfLine
  | .Char 'n', _ => some .NextBuffer
  | .Char 'p', _ => some .PreviousBuffer
  | .Char 'd', true => some .PageDown
  | .Char 'u', true => some .PageUp
  | .Char 'w', true => some .Save
  | .Char 'd', false => some .DeleteLine
  | _, _ => none

/-- `Editor::handle_normal_key`: dispatch the mapped action, if any. -/
def handle_normal_key (e : Editor) (k : KeyEvent) : Editor × Option Err :=
  match normalKeyAction k with
  | some a => e.handle_action a
  | none => (e, none)

/-- `Editor::handle_insert_key`: Esc leaves Insert mode, Enter opens a
line, Backspace moves left then deletes only when the column is
positive, a character key inserts. -/
def handle_insert_key (e : Editor) (k : KeyEvent) : Editor × Option Err :=
  match k.code with
  | .Esc => e.handle_action (.EnterMode .Normal)
  | .Enter => e.handle_action .NewLine
  | .Backspace =>
    if e.cx > 0 then { e with cx := e.cx - 1 }.handle_action .DeleteChar
    else (e, none)
  | .Char c => e.handle_action (.AddChar c)
  | _ => (e, none)

/-- `Editor::handle_command_key`: Esc clears the command line and
returns to Normal mode, Enter takes the accumulated command, runs it
(propagating its error, in which case the mode switch does not happen)
and returns to Normal mode, Backspace pops a character, a character key
appends. -/
def handle_command_key (e : Editor) (k : KeyEvent) : Editor × Option Err :=
  match k.code with
  | .Esc => { e with command_line := [] }.handle_action (.EnterMode .Normal)
  | .Enter =>
    let command := e.command_line
    let e2 := { e with command_line := [] }
    match e2.handle_command command with
    | (e3, some err) => (e3, some err)
    | (e3, none) => e3.handle_action (.EnterMode .Normal)
  | .Backspace =>
    (if e.command_line ≠ [] then { e with command_line := e.command_line.dropLast }
     else e, none)
  | .Char c => ({ e with command_line := e.command_line ++ [c] }, none)
  | _ => (e, none)

/-- The `Editor::run` loop over a finite stream of key events
(rendering is dropped; the real loop blocks for the next event, the
model ends when the stream does).  Each iteration re-clamps the cursor,
stops if the exit flag is set, and otherwise handles the next key in
the current mode; an error from the key handler propagates out of the
loop (`?`), which in `main` terminates the process. -/
def run (e : Editor) : List KeyEvent → Except Err Editor
  | [] => .ok e.adjust_cursor_position
  | k :: ks =>
    let e2 := e.adjust_cursor_position
    if e2.exit then .ok e2
    else
      match
        (match e2.mode with
         | .Normal => e2.handle_normal_key k
         | .Insert => e2.handle_insert_key k
         | .Command => e2.handle_command_key k) with
      | (_, some err) => .error err
      | (e3, none) => e3.run ks

end Editor

/-- Whether an action is one of the eight cursor-movement actions. -/
def Action.isMove : Action → Bool
  | .MoveUp | .MoveDown | .MoveLeft | .MoveRight
  | .MoveStartOfLine | .MoveEndOfLine | .PageUp | .PageDown => true
  | _ => false

/-- One movement step as the run loop performs it: dispatch the action,
then re-clamp cursor and viewport at the top of the next iteration. -/
def moveStep (e : Editor) (a : Action) : Editor :=
  (e.handle_action a).1.adjust_cursor_position

/-- Builder for concrete editor states used by the verification
scenarios: exit flag unset, empty command line, no status message. -/
def mkEditor (bs : List Buffer) (active : Nat) (size : Nat × Nat)
    (cx cy : Nat) (m : Mode) (scroll : Nat) : Editor :=
  { buffers := bs, active_buffer := active, size := size, cx := cx, cy := cy,
    mode := m, exit := false, scroll_offset := scroll, command_line := [],
    status_message := none }


section PreservationLemmas

variable (e : Editor)

@[simp] theorem adjust_scroll_buffers : (e.adjust_scroll).buffers = e.buffers := by
  simp only [Editor.adjust_scroll]; split <;> split <;> simp

@[simp] theorem adjust_scroll_active : (e.adjust_scroll).active_buffer = e.active_buffer := by
  simp only [Editor.adjust_scroll]; split <;> split <;> simp

@[simp] theorem adjust_scroll_mode : (e.adjust_scroll).mode = e.mode := by
  simp only [Editor.adjust_scroll]; split <;> split <;> simp

@[simp] theorem adjust_scroll_exit : (e.adjust_scroll).exit = e.exit := by
  simp only [Editor.adjust_scroll]; split <;> split <;> simp

@[simp] theorem adjust_scroll_size : (e.adjust_scroll).size = e.size := by
  simp only [Editor.adjust_scroll]; split <;> split <;> simp

@[simp] theorem adjust_scroll_cx : (e.adjust_scroll).cx = e.cx := by
  simp only [Editor.adjust_scroll]; split <;> split <;> simp

@[simp] theorem adjust_scroll_cy : (e.adjust_scroll).cy = e.cy := by
  simp only [Editor.adjust_scroll]; split <;> split <;> simp

@[simp] theorem adjust_scroll_command_line : (e.adjust_scroll).command_line = e.command_line := by
  simp only [Editor.adjust_scroll]; split <;> split <;> simp

@[simp] theorem adjust_scroll_status : (e.adjust_scroll).status_message = e.status_message := by
  simp only [Editor.adjust_scroll]; split <;> split <;> simp

@[simp] theorem adjust_buffers : (e.adjust_cursor_position).buffers = e.buffers := by
  simp only [Editor.adjust_cursor_position]; split <;> simp

@[simp] theorem adjust_active : (e.adjust_cursor_position).active_buffer = e.active_buffer := by
  simp only [Editor.adjust_cursor_position]; split <;> simp

@[simp] theorem adjust_mode : (e.adjust_cursor_position).mode = e.mode := by
  simp only [Editor.adjust_cursor_position]; split <;> simp

@[simp] theorem adjust_exit : (e.adjust_cursor_position).exit = e.exit := by
  simp only [Editor.adjust_cursor_position]; split <;> simp

@[simp] theorem adjust_size : (e.adjust_cursor_position).size = e.size := by
  simp only [Editor.adjust_cursor_position]; split <;> simp

@[simp] theorem adjust_command_line : (e.adjust_cursor_position).command_line = e.command_line := by
  simp only [Editor.adjust_cursor_position]; split <;> simp

@[simp] theorem adjust_status : (e.adjust_cursor_position).status_message = e.status_message := by
  simp only [Editor.adjust_cursor_position]; split <;> simp

@[simp] theorem adjust_current_buffer :
    (e.adjust_cursor_position).current_buffer = e.current_buffer := by
  simp [Editor.current_buffer]

@[simp] theorem adjust_visible_lines :
    (e.adjust_cursor_position).visible_lines = e.visible_lines := by
  simp [Editor.visible_lines]

end PreservationLemmas



theorem adjust_cy (e : Editor) :
    (e.adjust_cursor_position).cy = min e.cy (e.current_buffer.len - 1) := by
  simp only [Editor.adjust_cursor_position]; split <;> simp

theorem adjust_cx_normal (e : Editor) (h : e.mode ≠ .Insert) :
    (e.adjust_cursor_position).cx =
      min e.cx ((e.current_buffer.get_line (min e.cy (e.current_buffer.len - 1))).length - 1) := by
  simp only [Editor.adjust_cursor_position]
  split
  · simp [Editor.current_buffer]
  · simp_all

theorem adjust_cx_insert (e : Editor) (h : e.mode = .Insert) :
    (e.adjust_cursor_position).cx = e.cx := by
  simp only [Editor.adjust_cursor_position]
  split
  · simp_all
  · simp

@[simp] theorem adjust_scroll_visible (e : Editor) :
    (e.adjust_scroll).visible_lines = e.visible_lines := by
  simp [Editor.visible_lines]

theorem adjust_scroll_bounds (e : Editor) (h : 1 ≤ e.visible_lines) :
    (e.adjust_scroll).scroll_offset ≤ e.cy ∧
      e.cy < (e.adjust_scroll).scroll_offset + e.visible_lines := by
  simp only [Editor.adjust_scroll]
  split <;> split <;> simp_all <;> omega

theorem move_dispatch_fields (e : Editor) (a : Action) (h : a.isMove = true) :
    ((e.handle_action a).1).buffers = e.buffers ∧
    ((e.handle_action a).1).active_buffer = e.active_buffer ∧
    ((e.handle_action a).1).mode = e.mode := by
  cases a <;>
    simp_all [Action.isMove, Editor.handle_action, Editor.handle_action_basic] <;>
    split <;> simp

theorem adjust_bounds (e : Editor) (hm : e.mode = .Normal)
    (hl : 1 ≤ e.current_buffer.len) :
    (e.adjust_cursor_position).cy < (e.adjust_cursor_position).current_buffer.len ∧
    (e.adjust_cursor_position).cx ≤
      ((e.adjust_cursor_position).current_buffer.get_line (e.adjust_cursor_position).cy).length - 1 := by
  rw [adjust_current_buffer, adjust_cy, adjust_cx_normal e (by simp [hm])]
  refine ⟨?_, Nat.min_le_right _ _⟩
  omega



theorem next_buffer_step (e : Editor) :
    (e.handle_action .NextBuffer).1 =
      { e with active_buffer := (e.active_buffer + 1) % e.buffers.length } := rfl

theorem prev_buffer_step (e : Editor) :
    (e.handle_action .PreviousBuffer).1 =
      if e.active_buffer = 0 then { e with active_buffer := e.buffers.length - 1 }
      else { e with active_buffer := e.active_buffer - 1 } := rfl

theorem prev_as_mod (x n : Nat) (h1 : 1 ≤ n) (hx : x < n) :
    (if x = 0 then n - 1 else x - 1) = (x + (n - 1)) % n := by
  rcases x with _ | m
  · simp [Nat.mod_eq_of_lt (by omega : n - 1 < n)]
  · have he : m + 1 + (n - 1) = m + n := by omega
    rw [if_neg (by omega), he, Nat.add_mod_right, Nat.mod_eq_of_lt (by omega)]
    omega

theorem iter_next (n : Nat) (h1 : 1 ≤ n) : ∀ (k : Nat) (e : Editor),
    e.buffers.length = n → e.active_buffer < n →
    ((fun s => (Editor.handle_action s .NextBuffer).1)^[k] e).active_buffer
        = (e.active_buffer + k) % n ∧
      ((fun s => (Editor.handle_action s .NextBuffer).1)^[k] e).buffers.length = n := by
  intro k
  induction k with
  | zero =>
    intro e hb ha
    exact ⟨by simpa using (Nat.mod_eq_of_lt ha).symm, by simpa using hb⟩
  | succ j ih =>
    intro e hb ha
    rw [Function.iterate_succ_apply]
    have hstep : ((Editor.handle_action e .NextBuffer).1).active_buffer
        = (e.active_buffer + 1) % n := by rw [next_buffer_step]; simp [hb]
    have hstepb : ((Editor.handle_action e .NextBuffer).1).buffers.length = n := by
      rw [next_buffer_step]; simpa using hb
    obtain ⟨h2, h3⟩ := ih ((Editor.handle_action e .NextBuffer).1) hstepb
      (by rw [hstep]; exact Nat.mod_lt _ (by omega))
    constructor
    · rw [h2, hstep, Nat.mod_add_mod]
      congr 1
      omega
    · exact h3

theorem iter_prev (n : Nat) (h1 : 1 ≤ n) : ∀ (k : Nat) (e : Editor),
    e.buffers.length = n → e.active_buffer < n →
    ((fun s => (Editor.handle_action s .PreviousBuffer).1)^[k] e).active_buffer
        = (e.active_buffer + k * (n - 1)) % n ∧
      ((fun s => (Editor.handle_action s .PreviousBuffer).1)^[k] e).buffers.length = n := by
  intro k
  induction k with
  | zero =>
    intro e hb ha
    exact ⟨by simpa using (Nat.mod_eq_of_lt ha).symm, by simpa using hb⟩
  | succ j ih =>
    intro e hb ha
    rw [Function.iterate_succ_apply]
    have hstep : ((Editor.handle_action e .PreviousBuffer).1).active_buffer
        = (e.active_buffer + (n - 1)) % n := by
      rw [prev_buffer_step, ← prev_as_mod _ n h1 ha]
      split <;> simp [hb]
    have hstepb : ((Editor.handle_action e .PreviousBuffer).1).buffers.length = n := by
      rw [prev_buffer_step]; split <;> simpa using hb
    obtain ⟨h2, h3⟩ := ih ((Editor.handle_action e .PreviousBuffer).1) hstepb
      (by rw [hstep]; exact Nat.mod_lt _ (by omega))
    constructor
    · rw [h2, hstep, Nat.mod_add_mod]
      congr 1
      ring
    · exact h3


theorem handle_command_q (e : Editor) :
    e.handle_command (toStr "q") =
      if ¬ e.current_buffer.is_modified then e.handle_action_basic .Quit
      else (e.set_status_message (toStr "No write since last change (add ! to override)"),
            none) := by
  have hs : splitWs (toStr "q") = [toStr "q"] := rfl
  simp only [Editor.handle_command, hs]
  rw [if_neg (by decide), if_pos (by decide)]

theorem handle_command_quit (e : Editor) :
    e.handle_command (toStr "quit") =
      if ¬ e.current_buffer.is_modified then e.handle_action_basic .Quit
      else (e.set_status_message (toStr "No write since last change (add ! to override)"),
            none) := by
  have hs : splitWs (toStr "quit") = [toStr "quit"] := rfl
  simp only [Editor.handle_command, hs]
  rw [if_neg (by decide), if_pos (by decide)]

theorem handle_command_qbang (e : Editor) :
    e.handle_command (toStr "q!") = e.handle_action_basic .Quit := by
  have hs : splitWs (toStr "q!") = [toStr "q!"] := rfl
  simp only [Editor.handle_command, hs]
  rw [if_neg (by decide), if_neg (by decide), if_pos (by decide)]

theorem handle_command_quitbang (e : Editor) :
    e.handle_command (toStr "quit!") = e.handle_action_basic .Quit := by
  have hs : splitWs (toStr "quit!") = [toStr "quit!"] := rfl
  simp only [Editor.handle_command, hs]
  rw [if_neg (by decide), if_neg (by decide), if_pos (by decide)]



theorem consHead_ne_nil (c : Char) (l : List Str) : consHead c l ≠ [] := by
  cases l <;> simp [consHead]

theorem rustLines_ne_nil (s : Str) (hs : s ≠ []) : rustLines s ≠ [] := by
  unfold rustLines
  split
  · exact absurd rfl hs
  · simp
  · simp
  · split
    · simp
    · exact consHead_ne_nil _ _

theorem rustLines_no_nl (l : Str) (h1 : '\n' ∉ l) (h2 : '\r' ∉ l) (h3 : l ≠ []) :
    rustLines l = [l] := by
  induction l with
  | nil => exact absurd rfl h3
  | cons c cs ih =>
    simp only [List.mem_cons, not_or] at h1 h2
    obtain ⟨hc1, hcs1⟩ := h1
    obtain ⟨hc2, hcs2⟩ := h2
    unfold rustLines
    split
    · simp_all
    · simp_all
    · simp_all
    · rename_i c2 cs2 hA hB heq
      injection heq with e1 e2
      subst e1
      subst e2
      rw [if_neg (fun h => hc1 h.symm)]
      rcases cs with _ | ⟨d, ds⟩
      · simp [rustLines, consHead]
      · rw [ih hcs1 hcs2 (by simp)]
        simp [consHead]

theorem rustLines_append (l rest : Str) (h1 : '\n' ∉ l) (h2 : '\r' ∉ l) :
    rustLines (l ++ '\n' :: rest) = l :: rustLines rest := by
  induction l with
  | nil => simp [rustLines]
  | cons c cs ih =>
    simp only [List.mem_cons, not_or] at h1 h2
    obtain ⟨hc1, hcs1⟩ := h1
    obtain ⟨hc2, hcs2⟩ := h2
    rw [List.cons_append]
    unfold rustLines
    split
    · simp_all
    · simp_all
    · rename_i cs2 heq
      exfalso
      injection heq with e1 e2
      exact hc2 e1.symm
    · rename_i c2 cs2 hA hB heq
      injection heq with e1 e2
      subst e1
      subst e2
      rw [if_neg (fun h => hc1 h.symm), ih hcs1 hcs2, ← rustLines.eq_def]
      simp [consHead]


theorem joinNl_cons_cons (l l2 : Str) (ls : List Str) :
    joinNl (l :: l2 :: ls) = l ++ '\n' :: joinNl (l2 :: ls) := rfl

theorem joinNl_ne_nil (ls : List Str) (hne : ls ≠ [])
    (hlast : ls.getLast? ≠ some []) : joinNl ls ≠ [] := by
  match ls with
  | [] => exact absurd rfl hne
  | [l] =>
    simp only [List.getLast?_singleton] at hlast
    simpa [joinNl] using fun h => hlast (by rw [h])
  | l :: l2 :: ls => simp [joinNl_cons_cons]

theorem rustLines_joinNl (ls : List Str) (hne : ls ≠ [])
    (hclean : ∀ l ∈ ls, '\n' ∉ l ∧ '\r' ∉ l)
    (hlast : ls.getLast? ≠ some []) :
    rustLines (joinNl ls) = ls := by
  induction ls with
  | nil => exact absurd rfl hne
  | cons l tail ih =>
    rcases tail with _ | ⟨l2, ls2⟩
    · have hl : l ≠ [] := by
        simp only [List.getLast?_singleton] at hlast
        exact fun h => hlast (by rw [h])
      obtain ⟨h1, h2⟩ := hclean l (by simp)
      simp [joinNl, rustLines_no_nl l h1 h2 hl]
    · obtain ⟨h1, h2⟩ := hclean l (by simp)
      rw [joinNl_cons_cons, rustLines_append l _ h1 h2,
        ih (by simp) (fun x hx => hclean x (by simp [hx])) (by simpa using hlast)]


theorem insertIdx_length_ge {α : Type} (a : α) :
    ∀ (n : Nat) (l : List α), l.length ≤ (l.insertIdx n a).length := by
  intro n
  induction n with
  | zero => intro l; simp
  | succ m ih =>
    intro l
    cases l with
    | nil => simp
    | cons x xs => simpa [List.insertIdx_succ_cons] using ih xs

/-- Claim C7: every Buffer operation preserves lines.len >= 1 — the
constructors produce at least one line, the line-local editing
operations preserve the line count, remove_line keeps at least one line,
and save/save_as leave the lines untouched; in particular remove_line on
a single-line buffer returns the removed text and leaves the one line
cleared to empty rather than shrinking to zero lines. -/
theorem buffer_ops_preserve_nonempty_lines (b : Buffer) (file : Option Str) (contents p : Str) (fsc : Option Str)
    (cx cy : Nat) (c : Char) (hb : 1 ≤ b.lines.length) :
    1 ≤ (Buffer.new file contents).lines.length ∧
    1 ≤ (Buffer.from_file p fsc).lines.length ∧
    1 ≤ (b.insert_new_line cy cx).lines.length ∧
    (∀ b2, b.insert_char cx cy c = .ok b2 → b2.lines.length = b.lines.length) ∧
    (∀ b2, b.remove_char cx cy = .ok b2 → b2.lines.length = b.lines.length) ∧
    (∀ l b2, b.remove_line cy = .ok (l, b2) → 1 ≤ b2.lines.length) ∧
    (∀ b2, b.save = .ok b2 → b2.lines = b.lines) ∧
    (b.save_as p).lines = b.lines ∧
    (∀ l, b.lines = [l] →
      b.remove_line 0 = .ok (l, { b with lines := [[]], is_modified := true })) := by
  refine ⟨?_, ?_, ?_, ?_, ?_, ?_, ?_, rfl, ?_⟩
  · simp only [Buffer.new]
    split
    · simp
    · simpa using List.length_pos.mpr (rustLines_ne_nil _ (by assumption))
  · rcases fsc with _ | cont
    · simp [Buffer.from_file]
    · simp only [Buffer.from_file]
      split
      · simp
      · simpa using List.length_pos.mpr (rustLines_ne_nil _ (by assumption))
  · simpa [Buffer.insert_new_line] using le_trans hb (insertIdx_length_ge _ cy b.lines)
  · intro b2 h
    simp only [Buffer.insert_char] at h
    split at h
    · exact absurd h (by simp)
    · split at h
      · exact absurd h (by simp)
      · simp only [Except.ok.injEq] at h
        rw [← h]
        simp
  · intro b2 h
    simp only [Buffer.remove_char] at h
    split at h
    · exact absurd h (by simp)
    · split at h
      · exact absurd h (by simp)
      · simp only [Except.ok.injEq] at h
        rw [← h]
        simp
  · intro l b2 h
    simp only [Buffer.remove_line] at h
    split at h
    · exact absurd h (by simp)
    · split at h
      · simp only [Except.ok.injEq, Prod.mk.injEq] at h
        rw [← h.2]
        simpa using hb
      · simp only [Except.ok.injEq, Prod.mk.injEq] at h
        rw [← h.2]
        rename_i hge h1
        have hcy : cy < b.lines.length := by omega
        have := List.length_eraseIdx_add_one hcy
        simp only [List.length_eraseIdx_add_one]
        omega
  · intro b2 h
    simp only [Buffer.save] at h
    split at h
    · simp only [Except.ok.injEq] at h
      rw [← h]
    · exact absurd h (by simp)
  · intro l hl
    simp [Buffer.remove_line, hl]


theorem moveStep_inv (e : Editor) (a : Action) (h : a.isMove = true)
    (hm : e.mode = .Normal) (hl : 1 ≤ e.current_buffer.len) :
    (moveStep e a).mode = .Normal ∧
    1 ≤ (moveStep e a).current_buffer.len ∧
    (moveStep e a).cy < (moveStep e a).current_buffer.len ∧
    (moveStep e a).cx ≤
      ((moveStep e a).current_buffer.get_line (moveStep e a).cy).length - 1 := by
  obtain ⟨hb, ha, hmo⟩ := move_dispatch_fields e a h
  have hcur : ((e.handle_action a).1).current_buffer = e.current_buffer := by
    simp [Editor.current_buffer, hb, ha]
  have hm2 : ((e.handle_action a).1).mode = .Normal := by rw [hmo, hm]
  have hl2 : 1 ≤ ((e.handle_action a).1).current_buffer.len := by rw [hcur]; exact hl
  obtain ⟨h1, h2⟩ := adjust_bounds _ hm2 hl2
  refine ⟨?_, ?_, h1, h2⟩
  · show ((e.handle_action a).1.adjust_cursor_position).mode = .Normal
    rw [adjust_mode]; exact hm2
  · show 1 ≤ ((e.handle_action a).1.adjust_cursor_position).current_buffer.len
    rw [adjust_current_buffer]; exact hl2

theorem c6_seq (acts : List Action) :
    ∀ (e : Editor), e.mode = .Normal → 1 ≤ e.current_buffer.len →
      (∀ a ∈ acts, a.isMove = true) →
      ∀ i, i < acts.length →
        (((acts.take (i+1)).foldl moveStep e).cy <
            ((acts.take (i+1)).foldl moveStep e).current_buffer.len ∧
          ((acts.take (i+1)).foldl moveStep e).cx ≤
            ((((acts.take (i+1)).foldl moveStep e).current_buffer.get_line
              ((acts.take (i+1)).foldl moveStep e).cy).length) - 1) := by
  induction acts with
  | nil => intro e _ _ _ i hi; simp at hi
  | cons a as ih =>
    intro e hm hl hall i hi
    obtain ⟨hm2, hl2, hcy, hcx⟩ := moveStep_inv e a (hall a (by simp)) hm hl
    match i with
    | 0 => simpa using ⟨hcy, hcx⟩
    | Nat.succ j =>
      have := ih (moveStep e a) hm2 hl2 (fun b hb => hall b (by simp [hb])) j (by simpa using hi)
      simpa using this

/-- Claim C1 (counterexample): the dispatcher does not convert errors
into status messages or silent no-ops, and the process does not survive
them.  With a scratch buffer bound to no file, Save returns the no-file
error with the state (including the absent status message) unchanged,
and the run loop propagates it out, terminating the session; likewise a
buffer-index error (AddChar with the column beyond the line length, an
Insert-mode state the re-clamp does not repair) is returned as an error
with no status message set, and the run loop propagates it too —
contradicting the claim that such errors become status messages or
no-ops and never terminate the process. -/
theorem save_error_not_status_counterexample :
    Editor.handle_action (mkEditor [⟨none, [[]], false⟩] 0 (80, 24) 0 0 .Normal 0) .Save
        = (mkEditor [⟨none, [[]], false⟩] 0 (80, 24) 0 0 .Normal 0,
           some Err.noFileAssociated) ∧
    (mkEditor [⟨none, [[]], false⟩] 0 (80, 24) 0 0 .Normal 0).status_message = none ∧
    Editor.run (mkEditor [⟨none, [[]], false⟩] 0 (80, 24) 0 0 .Normal 0)
        [⟨KeyCode.Char 'w', true⟩]
      = .error Err.noFileAssociated ∧
    Editor.handle_action (mkEditor [⟨none, [[]], false⟩] 0 (80, 24) 5 0 .Insert 0)
        (.AddChar 'X')
        = (mkEditor [⟨none, [[]], false⟩] 0 (80, 24) 5 0 .Insert 0,
           some (Err.invalidColumnIndex 5)) ∧
    (mkEditor [⟨none, [[]], false⟩] 0 (80, 24) 5 0 .Insert 0).status_message = none ∧
    Editor.run (mkEditor [⟨none, [[]], false⟩] 0 (80, 24) 5 0 .Insert 0)
        [⟨KeyCode.Char 'X', false⟩]
      = .error (Err.invalidColumnIndex 5) := by decide

/-- Claim C1 (amended): buffer-index and save errors raised while
handling an Action are not converted into status messages or silent
no-ops: handle_action returns the save error and the insert_char,
remove_char and remove_line errors of AddChar, DeleteChar and
DeleteLine as errors, with the editor state (including the status
message) unchanged, and the run loop forwards such an error,
terminating the session with it (in main this ends the process); the
terminal-setup failure at startup is likewise fatal. -/
theorem save_error_propagates_and_terminates_run (e : Editor) (ks : List KeyEvent)
    (c : Char) :
    (e.current_buffer.file = none →
      e.handle_action .Save = (e, some Err.noFileAssociated)) ∧
    (∀ err, e.current_buffer.insert_char e.cx e.cy c = .error err →
      e.handle_action (.AddChar c) = (e, some err)) ∧
    (∀ err, e.current_buffer.remove_char e.cx e.cy = .error err →
      e.handle_action .DeleteChar = (e, some err)) ∧
    (∀ err, e.current_buffer.remove_line e.cy = .error err →
      e.handle_action .DeleteLine = (e, some err)) ∧
    (e.exit = false → e.mode = .Normal → e.current_buffer.file = none →
      e.run (⟨KeyCode.Char 'w', true⟩ :: ks) = .error Err.noFileAssociated) ∧
    (∀ err, e.exit = false → e.mode = .Insert →
      (e.adjust_cursor_position).current_buffer.insert_char
          (e.adjust_cursor_position).cx (e.adjust_cursor_position).cy c = .error err →
      e.run (⟨KeyCode.Char c, false⟩ :: ks) = .error err) := by
  refine ⟨fun hfile => ?_, fun err herr => ?_, fun err herr => ?_, fun err herr => ?_,
    fun hexit hmode hfile => ?_, fun err hexit hmode herr => ?_⟩
  · have hsave : e.current_buffer.save = .error Err.noFileAssociated := by
      simp [Buffer.save, hfile]
    simp [Editor.handle_action, Editor.handle_action_basic, hsave]
  · simp [Editor.handle_action, Editor.handle_action_basic, herr]
  · simp [Editor.handle_action, Editor.handle_action_basic, herr]
  · simp [Editor.handle_action, Editor.handle_action_basic, herr]
  · have hsave : e.current_buffer.save = .error Err.noFileAssociated := by
      simp [Buffer.save, hfile]
    have h1 : (e.adjust_cursor_position).exit = false := by simp [hexit]
    have h2 : (e.adjust_cursor_position).mode = Mode.Normal := by simp [hmode]
    have h4 : Editor.normalKeyAction ⟨KeyCode.Char 'w', true⟩ = some Action.Save := rfl
    simp only [Editor.run, h1, h2]
    simp [Editor.handle_normal_key, h4, Editor.handle_action,
      Editor.handle_action_basic]
    rw [hsave]
  · have h1 : (e.adjust_cursor_position).exit = false := by simp [hexit]
    have h2 : (e.adjust_cursor_position).mode = Mode.Insert := by simp [hmode]
    rw [adjust_current_buffer] at herr
    simp only [Editor.run, h1, h2]
    simp [Editor.handle_insert_key, Editor.handle_action,
      Editor.handle_action_basic, herr]

/-- Claim C1 (witness): the amended statement evaluated on concrete
sessions — a Normal-mode scratch-buffer state with out-of-range cursor
coordinates exhibits the save error and all three buffer-index errors
propagating out of the dispatcher and the Ctrl-w save error ending the
run loop, and an Insert-mode state with the column beyond the line
length exhibits a typed character ending the run loop with the
insert_char column error. -/
theorem save_error_propagates_witness :
    Editor.handle_action (mkEditor [⟨none, [[]], false⟩] 0 (80, 24) 5 2 .Normal 0) .Save
        = (mkEditor [⟨none, [[]], false⟩] 0 (80, 24) 5 2 .Normal 0,
           some Err.noFileAssociated) ∧
    Editor.handle_action (mkEditor [⟨none, [[]], false⟩] 0 (80, 24) 5 2 .Normal 0)
        (.AddChar 'X')
        = (mkEditor [⟨none, [[]], false⟩] 0 (80, 24) 5 2 .Normal 0,
           some (Err.invalidLineIndex 2)) ∧
    Editor.handle_action (mkEditor [⟨none, [[]], false⟩] 0 (80, 24) 5 2 .Normal 0)
        .DeleteChar
        = (mkEditor [⟨none, [[]], false⟩] 0 (80, 24) 5 2 .Normal 0,
           some (Err.invalidLineIndex 2)) ∧
    Editor.handle_action (mkEditor [⟨none, [[]], false⟩] 0 (80, 24) 5 2 .Normal 0)
        .DeleteLine
        = (mkEditor [⟨none, [[]], false⟩] 0 (80, 24) 5 2 .Normal 0,
           some (Err.invalidLineIndex 2)) ∧
    Editor.run (mkEditor [⟨none, [[]], false⟩] 0 (80, 24) 5 2 .Normal 0)
        [⟨KeyCode.Char 'w', true⟩]
      = .error Err.noFileAssociated ∧
    Editor.run (mkEditor [⟨none, [[]], false⟩] 0 (80, 24) 5 0 .Insert 0)
        [⟨KeyCode.Char 'X', false⟩]
      = .error (Err.invalidColumnIndex 5) := by
  have hN := save_error_propagates_and_terminates_run
    (mkEditor [⟨none, [[]], false⟩] 0 (80, 24) 5 2 .Normal 0) [] 'X'
  have hI := save_error_propagates_and_terminates_run
    (mkEditor [⟨none, [[]], false⟩] 0 (80, 24) 5 0 .Insert 0) [] 'X'
  exact ⟨hN.1 (by decide),
    hN.2.1 (Err.invalidLineIndex 2) (by decide),
    hN.2.2.1 (Err.invalidLineIndex 2) (by decide),
    hN.2.2.2.1 (Err.invalidLineIndex 2) (by decide),
    hN.2.2.2.2.1 (by decide) (by decide) (by decide),
    hI.2.2.2.2.2 (Err.invalidColumnIndex 5) (by decide) (by decide) (by decide)⟩

/-- Claim C2 (counterexample): on buffer ["ab","cd"] with cursor (0,1) in
Insert mode, Backspace leaves the lines and cursor unchanged — the lines
do not become ["abcd"], no merge happens. -/
theorem backspace_col0_no_merge_counterexample :
    ((mkEditor [⟨none, [toStr "ab", toStr "cd"], false⟩] 0 (80, 24) 0 1 .Insert 0).handle_insert_key
        ⟨KeyCode.Backspace, false⟩).1.current_buffer.lines = [toStr "ab", toStr "cd"] ∧
    ((mkEditor [⟨none, [toStr "ab", toStr "cd"], false⟩] 0 (80, 24) 0 1 .Insert 0).handle_insert_key
        ⟨KeyCode.Backspace, false⟩).1.cx = 0 ∧
    ((mkEditor [⟨none, [toStr "ab", toStr "cd"], false⟩] 0 (80, 24) 0 1 .Insert 0).handle_insert_key
        ⟨KeyCode.Backspace, false⟩).1.cy = 1 ∧
    ¬ (((mkEditor [⟨none, [toStr "ab", toStr "cd"], false⟩] 0 (80, 24) 0 1 .Insert 0).handle_insert_key
        ⟨KeyCode.Backspace, false⟩).1.current_buffer.lines = [toStr "abcd"]) := by decide

/-- Claim C2 (amended): in Insert mode, pressing Backspace with the
cursor at column 0 of any row is a no-op: the key handler guards on a
positive column, so no merge into the previous line happens and the
buffer and cursor are unchanged. -/
theorem backspace_col0_noop (e : Editor) (k : KeyEvent)
    (hk : k.code = KeyCode.Backspace) (h : e.cx = 0) :
    e.handle_insert_key k = (e, none) := by
  cases k with
  | mk code ctrl =>
    simp only at hk
    subst hk
    simp [Editor.handle_insert_key, h]

/-- Claim C2 (witness): the amended statement on the concrete scenario
buffer ["ab","cd"] with cursor (0,1). -/
theorem backspace_col0_noop_witness :
    (mkEditor [⟨none, [toStr "ab", toStr "cd"], false⟩] 0 (80, 24) 0 1 .Insert 0).handle_insert_key
        ⟨KeyCode.Backspace, false⟩
      = (mkEditor [⟨none, [toStr "ab", toStr "cd"], false⟩] 0 (80, 24) 0 1 .Insert 0, none) :=
  backspace_col0_noop _ _ (by decide) (by decide)

/-- Claim C3 (code bug): insert_char on buffer ["abc"] at row 0, column
0 succeeds and inserts the character, but leaves is_modified = false —
every other mutating Buffer operation sets the flag, the status line and
the quit guard read it, and the spec says any mutating operation sets
it, so the missing assignment in insert_char is a slip in the code. -/
theorem insert_char_leaves_modified_false :
    Buffer.insert_char ⟨none, [toStr "abc"], false⟩ 0 0 'X'
      = .ok ⟨none, [toStr "Xabc"], false⟩ := by decide


/-- Claim C4 (counterexample): the buffer with lines ["a",""] saves to
the contents "a\n", which loads back as the single line ["a"] — the
trailing empty line is dropped, so save followed by load is not the
identity on the lines field. -/
theorem save_load_roundtrip_counterexample :
    (Buffer.from_file (toStr "f")
        (some (Buffer.saveContents ⟨some (toStr "f"), [toStr "a", []], false⟩))).lines
      ≠ (⟨some (toStr "f"), [toStr "a", []], false⟩ : Buffer).lines := by decide

/-- Claim C4 (amended): for every line sequence whose lines contain no
newline or carriage-return characters, saving and reloading from the
same path reproduces the identical line sequence provided the last line
is nonempty (or the buffer is the single empty line); a trailing empty
line is dropped by the reload. -/
theorem save_load_roundtrip_amended (b : Buffer) (p : Str)
    (hne : b.lines ≠ [])
    (hclean : ∀ l ∈ b.lines, '\n' ∉ l ∧ '\r' ∉ l)
    (hlast : b.lines.getLast? ≠ some [] ∨ b.lines = [[]]) :
    (Buffer.from_file p (some b.saveContents)).lines = b.lines := by
  rcases hlast with hlast | hsingle
  · have hj : joinNl b.lines ≠ [] := joinNl_ne_nil _ hne hlast
    simp only [Buffer.from_file, Buffer.saveContents]
    rw [if_neg hj]
    exact rustLines_joinNl _ hne hclean hlast
  · simp [Buffer.from_file, Buffer.saveContents, hsingle, joinNl]

/-- Claim C4 (witness): the amended round trip evaluated on a concrete
buffer with lines ["hi"]. -/
theorem save_load_roundtrip_witness :
    (Buffer.from_file (toStr "f")
        (some (Buffer.saveContents ⟨some (toStr "f"), [toStr "hi"], true⟩))).lines
      = (⟨some (toStr "f"), [toStr "hi"], true⟩ : Buffer).lines :=
  save_load_roundtrip_amended ⟨some (toStr "f"), [toStr "hi"], true⟩ (toStr "f")
    (by decide) (by decide) (by decide)

/-- Claim C5 (counterexample): a session on a 7-row terminal (5 visible
rows) with a 20-line and a 10-line buffer, cursor row 13 and scroll
offset 9 satisfies all three claimed scroll bounds, yet after NextBuffer
and the following re-clamp the scroll offset is still 9 while
max(0, lines.len - visible_rows) = 5 — the third bound fails because the
code never clamps the scroll offset against the buffer length. -/
theorem scroll_invariant_counterexample :
    ((mkEditor [⟨none, List.replicate 20 [], false⟩, ⟨none, List.replicate 10 [], false⟩]
        0 (80, 7) 0 13 .Normal 9).scroll_offset
      ≤ (mkEditor [⟨none, List.replicate 20 [], false⟩, ⟨none, List.replicate 10 [], false⟩]
        0 (80, 7) 0 13 .Normal 9).cy) ∧
    ((mkEditor [⟨none, List.replicate 20 [], false⟩, ⟨none, List.replicate 10 [], false⟩]
        0 (80, 7) 0 13 .Normal 9).scroll_offset
      ≤ (mkEditor [⟨none, List.replicate 20 [], false⟩, ⟨none, List.replicate 10 [], false⟩]
          0 (80, 7) 0 13 .Normal 9).current_buffer.len
        - (mkEditor [⟨none, List.replicate 20 [], false⟩, ⟨none, List.replicate 10 [], false⟩]
            0 (80, 7) 0 13 .Normal 9).visible_lines) ∧
    (((mkEditor [⟨none, List.replicate 20 [], false⟩, ⟨none, List.replicate 10 [], false⟩]
        0 (80, 7) 0 13 .Normal 9).handle_action .NextBuffer).1.adjust_cursor_position).scroll_offset = 9 ∧
    (((mkEditor [⟨none, List.replicate 20 [], false⟩, ⟨none, List.replicate 10 [], false⟩]
        0 (80, 7) 0 13 .Normal 9).handle_action .NextBuffer).1.adjust_cursor_position).current_buffer.len = 10 ∧
    (((mkEditor [⟨none, List.replicate 20 [], false⟩, ⟨none, List.replicate 10 [], false⟩]
        0 (80, 7) 0 13 .Normal 9).handle_action .NextBuffer).1.adjust_cursor_position).visible_lines = 5 ∧
    ¬ ((((mkEditor [⟨none, List.replicate 20 [], false⟩, ⟨none, List.replicate 10 [], false⟩]
        0 (80, 7) 0 13 .Normal 9).handle_action .NextBuffer).1.adjust_cursor_position).scroll_offset
      ≤ (((mkEditor [⟨none, List.replicate 20 [], false⟩, ⟨none, List.replicate 10 [], false⟩]
            0 (80, 7) 0 13 .Normal 9).handle_action .NextBuffer).1.adjust_cursor_position).current_buffer.len
        - (((mkEditor [⟨none, List.replicate 20 [], false⟩, ⟨none, List.replicate 10 [], false⟩]
            0 (80, 7) 0 13 .Normal 9).handle_action .NextBuffer).1.adjust_cursor_position).visible_lines) := by
  decide

/-- Claim C5 (amended): after the cursor/viewport re-clamp, whenever at
least one row is visible the window bounds scroll_offset <= row and
row < scroll_offset + visible_rows hold; the additional bound
scroll_offset <= max(0, lines.len - visible_rows) is not established by
the code (no clamp against the buffer length exists) and can fail. -/
theorem scroll_bounds_after_adjust (e : Editor) (h : 1 ≤ e.visible_lines) :
    (e.adjust_cursor_position).scroll_offset ≤ (e.adjust_cursor_position).cy ∧
    (e.adjust_cursor_position).cy <
      (e.adjust_cursor_position).scroll_offset + (e.adjust_cursor_position).visible_lines := by
  simp only [Editor.adjust_cursor_position]
  split <;>
  · rw [adjust_scroll_cy, adjust_scroll_visible]
    exact adjust_scroll_bounds _ (by simpa [Editor.visible_lines] using h)

/-- Claim C5 (witness): the amended window bounds evaluated on a
concrete state. -/
theorem scroll_bounds_after_adjust_witness :
    ((mkEditor [⟨none, List.replicate 20 [], false⟩] 0 (80, 7) 0 13 .Normal 2).adjust_cursor_position).scroll_offset
      ≤ ((mkEditor [⟨none, List.replicate 20 [], false⟩] 0 (80, 7) 0 13 .Normal 2).adjust_cursor_position).cy ∧
    ((mkEditor [⟨none, List.replicate 20 [], false⟩] 0 (80, 7) 0 13 .Normal 2).adjust_cursor_position).cy <
      ((mkEditor [⟨none, List.replicate 20 [], false⟩] 0 (80, 7) 0 13 .Normal 2).adjust_cursor_position).scroll_offset
        + ((mkEditor [⟨none, List.replicate 20 [], false⟩] 0 (80, 7) 0 13 .Normal 2).adjust_cursor_position).visible_lines :=
  scroll_bounds_after_adjust
    (mkEditor [⟨none, List.replicate 20 [], false⟩] 0 (80, 7) 0 13 .Normal 2) (by decide)

/-- Claim C6 (counterexample): in Insert mode the re-clamp leaves the
column unchanged, so dispatching MoveDown on buffer ["abcd","x"] with
cursor (4,0) ends with column 4 on the length-1 line "x" — the claimed
Insert-mode column bound fails. -/
theorem insert_mode_move_column_counterexample :
    (moveStep (mkEditor [⟨none, [toStr "abcd", toStr "x"], false⟩] 0 (80, 12) 4 0 .Insert 0)
        .MoveDown).mode = Mode.Insert ∧
    ¬ ((moveStep (mkEditor [⟨none, [toStr "abcd", toStr "x"], false⟩] 0 (80, 12) 4 0 .Insert 0)
          .MoveDown).cx
        ≤ ((moveStep (mkEditor [⟨none, [toStr "abcd", toStr "x"], false⟩] 0 (80, 12) 4 0 .Insert 0)
              .MoveDown).current_buffer.get_line
            (moveStep (mkEditor [⟨none, [toStr "abcd", toStr "x"], false⟩] 0 (80, 12) 4 0 .Insert 0)
              .MoveDown).cy).length) := by decide

/-- Claim C6 (amended): for every sequence of movement actions
dispatched from a Normal-mode state on a nonempty buffer, after each
action and its re-clamp the row satisfies 0 <= row < lines.len and the
column is at most max(0, line length - 1) (the Normal-mode bound; in
Insert mode the re-clamp leaves the column unchanged, so the claimed
Insert-mode bound is not maintained, though the key machine never emits
movement actions in Insert mode); movement saturates at buffer edges
with no wraparound between lines on Left/Right. -/
theorem move_sequence_bounds (e : Editor) (acts : List Action)
    (hm : e.mode = Mode.Normal) (hl : 1 ≤ e.current_buffer.len)
    (hall : ∀ a ∈ acts, a.isMove = true) :
    (∀ i, i < acts.length →
      (((acts.take (i+1)).foldl moveStep e).cy <
          ((acts.take (i+1)).foldl moveStep e).current_buffer.len ∧
        ((acts.take (i+1)).foldl moveStep e).cx ≤
          ((((acts.take (i+1)).foldl moveStep e).current_buffer.get_line
            ((acts.take (i+1)).foldl moveStep e).cy).length) - 1)) ∧
    (e.handle_action .MoveLeft).1.cy = e.cy ∧
    (e.handle_action .MoveRight).1.cy = e.cy ∧
    (e.cx = 0 → (e.handle_action .MoveLeft).1.cx = 0) ∧
    (e.cy = 0 → (e.handle_action .MoveUp).1.cy = 0) ∧
    (e.current_buffer.len - 1 ≤ e.cy → (e.handle_action .MoveDown).1.cy = e.cy) ∧
    ((e.current_buffer.get_line e.cy).length ≤ e.cx →
      (e.handle_action .MoveRight).1.cx = e.cx) := by
  refine ⟨c6_seq acts e hm hl hall, ?_, ?_, ?_, ?_, ?_, ?_⟩
  · simp only [Editor.handle_action, Editor.handle_action_basic]
    split <;> rfl
  · simp only [Editor.handle_action, Editor.handle_action_basic]
    split <;> rfl
  · intro h
    simp [Editor.handle_action, Editor.handle_action_basic, h]
  · intro h
    simp [Editor.handle_action, Editor.handle_action_basic, h]
  · intro h
    simp only [Editor.handle_action, Editor.handle_action_basic]
    rw [if_neg (by omega)]
  · intro h
    simp only [Editor.handle_action, Editor.handle_action_basic]
    rw [if_neg (by omega)]

/-- Claim C6 (witness): the amended bounds evaluated on a concrete
Normal-mode state and the one-action sequence [MoveDown]. -/
theorem move_sequence_bounds_witness :
    (∀ i, i < [Action.MoveDown].length →
      ((([Action.MoveDown].take (i+1)).foldl moveStep
          (mkEditor [⟨none, [toStr "ab"], false⟩] 0 (80, 12) 0 0 .Normal 0)).cy <
        (([Action.MoveDown].take (i+1)).foldl moveStep
          (mkEditor [⟨none, [toStr "ab"], false⟩] 0 (80, 12) 0 0 .Normal 0)).current_buffer.len ∧
       (([Action.MoveDown].take (i+1)).foldl moveStep
          (mkEditor [⟨none, [toStr "ab"], false⟩] 0 (80, 12) 0 0 .Normal 0)).cx ≤
        (((([Action.MoveDown].take (i+1)).foldl moveStep
            (mkEditor [⟨none, [toStr "ab"], false⟩] 0 (80, 12) 0 0 .Normal 0)).current_buffer.get_line
          (([Action.MoveDown].take (i+1)).foldl moveStep
            (mkEditor [⟨none, [toStr "ab"], false⟩] 0 (80, 12) 0 0 .Normal 0)).cy).length) - 1)) ∧
    ((mkEditor [⟨none, [toStr "ab"], false⟩] 0 (80, 12) 0 0 .Normal 0).handle_action .MoveLeft).1.cy
      = (mkEditor [⟨none, [toStr "ab"], false⟩] 0 (80, 12) 0 0 .Normal 0).cy ∧
    ((mkEditor [⟨none, [toStr "ab"], false⟩] 0 (80, 12) 0 0 .Normal 0).handle_action .MoveRight).1.cy
      = (mkEditor [⟨none, [toStr "ab"], false⟩] 0 (80, 12) 0 0 .Normal 0).cy ∧
    ((mkEditor [⟨none, [toStr "ab"], false⟩] 0 (80, 12) 0 0 .Normal 0).cx = 0 →
      ((mkEditor [⟨none, [toStr "ab"], false⟩] 0 (80, 12) 0 0 .Normal 0).handle_action .MoveLeft).1.cx = 0) ∧
    ((mkEditor [⟨none, [toStr "ab"], false⟩] 0 (80, 12) 0 0 .Normal 0).cy = 0 →
      ((mkEditor [⟨none, [toStr "ab"], false⟩] 0 (80, 12) 0 0 .Normal 0).handle_action .MoveUp).1.cy = 0) ∧
    ((mkEditor [⟨none, [toStr "ab"], false⟩] 0 (80, 12) 0 0 .Normal 0).current_buffer.len - 1
        ≤ (mkEditor [⟨none, [toStr "ab"], false⟩] 0 (80, 12) 0 0 .Normal 0).cy →
      ((mkEditor [⟨none, [toStr "ab"], false⟩] 0 (80, 12) 0 0 .Normal 0).handle_action .MoveDown).1.cy
        = (mkEditor [⟨none, [toStr "ab"], false⟩] 0 (80, 12) 0 0 .Normal 0).cy) ∧
    (((mkEditor [⟨none, [toStr "ab"], false⟩] 0 (80, 12) 0 0 .Normal 0).current_buffer.get_line
          (mkEditor [⟨none, [toStr "ab"], false⟩] 0 (80, 12) 0 0 .Normal 0).cy).length
        ≤ (mkEditor [⟨none, [toStr "ab"], false⟩] 0 (80, 12) 0 0 .Normal 0).cx →
      ((mkEditor [⟨none, [toStr "ab"], false⟩] 0 (80, 12) 0 0 .Normal 0).handle_action .MoveRight).1.cx
        = (mkEditor [⟨none, [toStr "ab"], false⟩] 0 (80, 12) 0 0 .Normal 0).cx) :=
  move_sequence_bounds (mkEditor [⟨none, [toStr "ab"], false⟩] 0 (80, 12) 0 0 .Normal 0)
    [Action.MoveDown] (by decide) (by decide) (by decide)


/-- Claim C7 (witness): the operations evaluated on a concrete one-line
buffer; in particular remove_line on the singleton buffer ["hi"] clears
the line in place and returns its text. -/
theorem buffer_ops_preserve_nonempty_lines_witness :
    Buffer.remove_line ⟨none, [toStr "hi"], false⟩ 0
      = .ok (toStr "hi",
          { (⟨none, [toStr "hi"], false⟩ : Buffer) with lines := [[]], is_modified := true }) :=
  (buffer_ops_preserve_nonempty_lines ⟨none, [toStr "hi"], false⟩ none [] [] none 0 0 'a'
    (by decide)).2.2.2.2.2.2.2.2 (toStr "hi") rfl

/-- Claim C8: executing q or quit while the active buffer is modified
leaves the terminate flag unchanged (hence unset) and sets the
no-write-since-last-change status message; executing q! or quit! sets
the terminate flag regardless of the modified flag. -/
theorem quit_guard_behavior (e : Editor) :
    (e.current_buffer.is_modified = true →
      ((e.handle_command (toStr "q")).1.exit = e.exit ∧
       (e.handle_command (toStr "q")).1.status_message
          = some (toStr "No write since last change (add ! to override)") ∧
       (e.handle_command (toStr "quit")).1.exit = e.exit ∧
       (e.handle_command (toStr "quit")).1.status_message
          = some (toStr "No write since last change (add ! to override)"))) ∧
    (e.handle_command (toStr "q!")).1.exit = true ∧
    (e.handle_command (toStr "quit!")).1.exit = true := by
  refine ⟨fun h => ?_, ?_, ?_⟩
  · rw [handle_command_q, handle_command_quit, if_neg (by simp [h])]
    simp [Editor.set_status_message]
  · rw [handle_command_qbang]; simp [Editor.handle_action_basic]
  · rw [handle_command_quitbang]; simp [Editor.handle_action_basic]

/-- Claim C8 (witness): the quit guard evaluated on a concrete session
whose active buffer is modified. -/
theorem quit_guard_behavior_witness :
    ((mkEditor [⟨some (toStr "f"), [toStr "x"], true⟩] 0 (80, 24) 0 0 .Command 0).handle_command
        (toStr "q")).1.exit
      = (mkEditor [⟨some (toStr "f"), [toStr "x"], true⟩] 0 (80, 24) 0 0 .Command 0).exit ∧
    ((mkEditor [⟨some (toStr "f"), [toStr "x"], true⟩] 0 (80, 24) 0 0 .Command 0).handle_command
        (toStr "q")).1.status_message
      = some (toStr "No write since last change (add ! to override)") ∧
    ((mkEditor [⟨some (toStr "f"), [toStr "x"], true⟩] 0 (80, 24) 0 0 .Command 0).handle_command
        (toStr "q!")).1.exit = true ∧
    ((mkEditor [⟨some (toStr "f"), [toStr "x"], true⟩] 0 (80, 24) 0 0 .Command 0).handle_command
        (toStr "quit!")).1.exit = true := by
  have h := quit_guard_behavior
    (mkEditor [⟨some (toStr "f"), [toStr "x"], true⟩] 0 (80, 24) 0 0 .Command 0)
  exact ⟨(h.1 (by decide)).1, (h.1 (by decide)).2.1, h.2.1, h.2.2⟩

/-- Claim C9: with n buffers and a valid active index, applying
NextBuffer n times returns the active index to its original value, and
likewise PreviousBuffer n times; a single application of either keeps
the active index within bounds (cyclic wrap in both directions). -/
theorem buffer_cycling (e : Editor) (n : Nat) (hn : e.buffers.length = n)
    (h1 : 1 ≤ n) (ha : e.active_buffer < n) :
    ((fun s => (Editor.handle_action s .NextBuffer).1)^[n] e).active_buffer
        = e.active_buffer ∧
    ((fun s => (Editor.handle_action s .PreviousBuffer).1)^[n] e).active_buffer
        = e.active_buffer ∧
    ((Editor.handle_action e .NextBuffer).1).active_buffer < n ∧
    ((Editor.handle_action e .PreviousBuffer).1).active_buffer < n := by
  refine ⟨?_, ?_, ?_, ?_⟩
  · rw [(iter_next n h1 n e hn ha).1, Nat.add_mod_right]
    exact Nat.mod_eq_of_lt ha
  · rw [(iter_prev n h1 n e hn ha).1, Nat.add_mul_mod_self_left]
    exact Nat.mod_eq_of_lt ha
  · rw [next_buffer_step]
    simpa [hn] using Nat.mod_lt _ (by omega)
  · rw [prev_buffer_step]
    split <;> simp [hn] <;> omega

/-- Claim C9 (witness): the cycling property evaluated on a concrete
session with two buffers and active index 0. -/
theorem buffer_cycling_witness :
    ((fun s => (Editor.handle_action s .NextBuffer).1)^[2]
        (mkEditor [⟨none, [[]], false⟩, ⟨none, [[]], true⟩] 0 (80, 24) 0 0 .Normal 0)).active_buffer
      = (mkEditor [⟨none, [[]], false⟩, ⟨none, [[]], true⟩] 0 (80, 24) 0 0 .Normal 0).active_buffer ∧
    ((fun s => (Editor.handle_action s .PreviousBuffer).1)^[2]
        (mkEditor [⟨none, [[]], false⟩, ⟨none, [[]], true⟩] 0 (80, 24) 0 0 .Normal 0)).active_buffer
      = (mkEditor [⟨none, [[]], false⟩, ⟨none, [[]], true⟩] 0 (80, 24) 0 0 .Normal 0).active_buffer ∧
    ((Editor.handle_action
        (mkEditor [⟨none, [[]], false⟩, ⟨none, [[]], true⟩] 0 (80, 24) 0 0 .Normal 0)
        .NextBuffer).1).active_buffer < 2 ∧
    ((Editor.handle_action
        (mkEditor [⟨none, [[]], false⟩, ⟨none, [[]], true⟩] 0 (80, 24) 0 0 .Normal 0)
        .PreviousBuffer).1).active_buffer < 2 :=
  buffer_cycling (mkEditor [⟨none, [[]], false⟩, ⟨none, [[]], true⟩] 0 (80, 24) 0 0 .Normal 0)
    2 (by decide) (by decide) (by decide)

/-- Claim C10: the modified-quit guard inspects only the active buffer —
whenever the active buffer is unmodified, the command q sets the
terminate flag, regardless of the modified flags of the other buffers in
the session. -/
theorem quit_checks_only_active_buffer (e : Editor)
    (h : e.current_buffer.is_modified = false) :
    (e.handle_command (toStr "q")).1.exit = true := by
  rw [handle_command_q, if_pos (by simp [h])]
  simp [Editor.handle_action_basic]

/-- Claim C10 (witness): the command q on a session whose active buffer
is unmodified while the other buffer is modified still sets the
terminate flag. -/
theorem quit_checks_only_active_buffer_witness :
    ((mkEditor [⟨some (toStr "f"), [[]], false⟩, ⟨some (toStr "g"), [[]], true⟩]
        0 (80, 24) 0 0 .Command 0).handle_command (toStr "q")).1.exit = true :=
  quit_checks_only_active_buffer
    (mkEditor [⟨some (toStr "f"), [[]], false⟩, ⟨some (toStr "g"), [[]], true⟩]
      0 (80, 24) 0 0 .Command 0) (by decide)

end Ziv
